import Mathlib

/-!
Verification of the retrieval engine and multi-agent routing pipeline of the
sciplangpt_groupchat_prototype repository, against its natural-language
specification.

The Lean definitions below are shallow embeddings of the Python source:

* `src/agents/base_agent.py` — `BaseAgent.evaluate_capability`,
  `BaseAgent.make_decision`, `BaseAgent.process_query` (the router loop);
* `src/agents/dynamic_agent.py` — `DynamicAgent.evaluate_capability`;
* `src/agents/agent_manager.py` — `AgentManager.process_message`;
* `src/create_embedding.py` — `embed_text`, `process_files_async` (persist
  section), `query_index_async` plus the documented behaviour of the external
  FAISS flat inner-product index it calls;
* `src/utils/query_knowledge.py` — `embed_text`, `ensure_embeddings_exist`,
  `query_knowledge`.

External services (OpenAI completion / embedding calls) are modelled as
oracles: a value of `Except String α` stands for "the call returned `.ok r`"
or "the call raised an exception described by the string".  Machine floats
are modelled by `ℚ` where the code only compares and sorts them, and by `ℝ`
where the code computes an L2 norm.
-/

/-- One trail entry appended by `BaseAgent.process_query`
(`base_agent.py` lines 139-144 and 164-165).  The Python value is a dict with
keys `agent_name`, `input`, `output`, `timestamp` and, once a candidate has
been chosen, `next_agent` / `next_agent_reason`; an `Option` field equal to
`none` models an absent key.  The wall-clock `timestamp` is omitted.  The
`next_agent_error` field is the key the specification claims is written onto
the trail step on a failed hand-off; the source never writes that key on a
step (it writes it on the response dict instead), so the model carries the
field and the code model never sets it. -/
structure Step where
  agent_name : String
  input : String
  output : String
  next_agent : Option String
  next_agent_reason : Option String
  next_agent_error : Option String
deriving DecidableEq, Repr

/-- Result of `evaluate_capability`: a score and a reason
(`base_agent.py` lines 74-77). -/
structure EvalResult where
  score : ℚ
  reason : String
deriving DecidableEq, Repr

/-- The response dict returned by `BaseAgent.process_query`.  The success
path (lines 167-174) sets `agent`, `content`, `status = "completed"`,
`message_trail`, `processed_agents`; a successful hand-off (lines 185-190)
additionally sets `next_agent_result` and overwrites `message_trail` /
`processed_agents` from the nested result; a failed hand-off (lines 191-193)
sets `next_agent_error`; the outer exception handler (lines 197-205) builds a
dict with `agent`, `error`, `status = "error"`, `message_trail` and with no
`content` / `processed_agents` keys (hence those fields are `Option`s). -/
inductive Response where
  | mk (agent : String) (content : Option String) (status : String)
      (message_trail : List Step) (processed_agents : Option (List String))
      (next_agent_result : Option Response) (next_agent_error : Option String)
      (error : Option String) : Response

def Response.agent : Response → String
  | .mk a _ _ _ _ _ _ _ => a

def Response.content : Response → Option String
  | .mk _ c _ _ _ _ _ _ => c

def Response.status : Response → String
  | .mk _ _ s _ _ _ _ _ => s

def Response.message_trail : Response → List Step
  | .mk _ _ _ t _ _ _ _ => t

def Response.processed_agents : Response → Option (List String)
  | .mk _ _ _ _ p _ _ _ => p

def Response.next_agent_result : Response → Option Response
  | .mk _ _ _ _ _ r _ _ => r

def Response.next_agent_error : Response → Option String
  | .mk _ _ _ _ _ _ e _ => e

def Response.error : Response → Option String
  | .mk _ _ _ _ _ _ _ e => e

@[simp] theorem Response.agent_mk (a c s t p r e f) :
    (Response.mk a c s t p r e f).agent = a := rfl

@[simp] theorem Response.content_mk (a c s t p r e f) :
    (Response.mk a c s t p r e f).content = c := rfl

@[simp] theorem Response.status_mk (a c s t p r e f) :
    (Response.mk a c s t p r e f).status = s := rfl

@[simp] theorem Response.message_trail_mk (a c s t p r e f) :
    (Response.mk a c s t p r e f).message_trail = t := rfl

@[simp] theorem Response.processed_agents_mk (a c s t p r e f) :
    (Response.mk a c s t p r e f).processed_agents = p := rfl

@[simp] theorem Response.next_agent_result_mk (a c s t p r e f) :
    (Response.mk a c s t p r e f).next_agent_result = r := rfl

@[simp] theorem Response.next_agent_error_mk (a c s t p r e f) :
    (Response.mk a c s t p r e f).next_agent_error = e := rfl

@[simp] theorem Response.error_mk (a c s t p r e f) :
    (Response.mk a c s t p r e f).error = f := rfl

/-- The mutable `context` dict threaded through `process_query`: the
`message_trail` list and the `processed_agents` list
(`base_agent.py` lines 134-135, read with `.get(key, [])`). -/
structure Ctx where
  message_trail : List Step
  processed_agents : List String

/-- Environment for one router invocation.  `agents` is the manager's
registry, in registration order (a Python 3.7+ dict iterates in insertion
order).  The four oracles resolve the externally-determined outcomes:

* `processMsg a m` — outcome of agent `a`'s `_process_message(m)`
  (`.error e` models the call raising, which `process_query`'s outer
  `except` catches);
* `evalCap a out` — the result of `a.evaluate_capability(out)`, which is
  total in the source (every exception path returns a score/reason dict);
* `decideCompletion a p` — the completion call inside `a.make_decision(p)`
  (`.error` models the OpenAI call raising);
* `handoffFault a` — `some err` models the recursive
  `a.process_query(...)` call itself raising `err` before doing any work
  (possible for arbitrary agent subclasses; `process_query` catches it at
  lines 191-193). -/
structure AgentEnv where
  agents : List String
  processMsg : String → String → Except String String
  evalCap : String → String → EvalResult
  decideCompletion : String → String → Except String String
  handoffFault : String → Option String

/-- Python's `str.strip()`: drop leading and trailing whitespace.  Defined
on the character list so that it evaluates inside the kernel (Lean's own
`String.trim` is irreducible). -/
def pyStrip (s : String) : String :=
  ⟨((s.data.dropWhile (fun c => c.isWhitespace)).reverse.dropWhile
      (fun c => c.isWhitespace)).reverse⟩

/-- Python's `str.lower()`, restricted to the ASCII case mapping of
`Char.toLower` (the replies compared against are ASCII `"yes"`/`"no"`). -/
def pyLower (s : String) : String :=
  ⟨s.data.map Char.toLower⟩

/-- `BaseAgent.make_decision` (`base_agent.py` lines 86-103): return the
completion reply `.strip().lower()`-ed; any exception yields `"no"`. -/
def make_decision (completion : Except String String) : String :=
  match completion with
  | .ok r => pyLower (pyStrip r)
  | .error _ => "no"

/-- The prompt `process_query` sends to the candidate's `make_decision`
(`base_agent.py` lines 180-182). -/
def handoffPrompt (current : String) : String :=
  "Do you need to process this message further?\nMessage: " ++ current

/-- `self.available_agents` after `register_available_agents`: every
registered agent except oneself (`base_agent.py` lines 105-108,
`agent_manager.py` lines 17-19). -/
def routerAvailable (env : AgentEnv) (self : String) : List String :=
  env.agents.filter (fun a => decide (a ≠ self))

/-- The agents evaluated in one round: available agents not yet in
`processed_agents` (`base_agent.py` lines 156-157). -/
def routerCandidates (env : AgentEnv) (self : String)
    (processed : List String) : List String :=
  (routerAvailable env self).filter (fun a => decide (a ∉ processed))

/-- The evaluation list built in one round (`base_agent.py` lines 155-159). -/
def routerEvaluations (env : AgentEnv) (self : String)
    (processed : List String) (current : String) : List (String × EvalResult) :=
  (routerCandidates env self processed).map (fun a => (a, env.evalCap a current))

/-- Python's `max(evaluations, key=lambda x: x[1]["score"])`
(`base_agent.py` line 163): the first element of maximal score wins, a later
element replaces the incumbent only when its score is strictly greater. -/
def pickMax (l : List (String × EvalResult)) : Option (String × EvalResult) :=
  match l with
  | [] => none
  | x :: xs =>
      some (xs.foldl (fun best y => if best.2.score < y.2.score then y else best) x)

theorem foldl_pick_mem {α : Type} (r : α → α → Prop) [DecidableRel r] :
    ∀ (xs : List α) (b : α), xs.foldl (fun best y => if r best y then y else best) b ∈ b :: xs := by
  intro xs
  induction xs with
  | nil => intro b; simp
  | cons y ys ih =>
      intro b
      have h := ih (if r b y then y else b)
      simp only [List.foldl_cons]
      rcases List.mem_cons.mp h with h1 | h1
      · rw [h1]
        by_cases hp : r b y
        · simp [hp]
        · simp [hp]
      · simp [h1]

theorem pickMax_mem (l : List (String × EvalResult)) (x : String × EvalResult)
    (h : pickMax l = some x) : x ∈ l := by
  match l with
  | [] => simp [pickMax] at h
  | y :: ys =>
      simp only [pickMax, Option.some.injEq] at h
      have := foldl_pick_mem (fun best z : String × EvalResult => best.2.score < z.2.score) ys y
      rw [h] at this
      exact this

/-- A candidate returned by `pickMax` over a round's evaluations is a
registered agent distinct from the caller and not yet processed. -/
theorem pickMax_props (env : AgentEnv) (self current : String)
    (p : List String) (n : String) (ev : EvalResult)
    (h : pickMax (routerEvaluations env self p current) = some (n, ev)) :
    n ∈ env.agents ∧ n ≠ self ∧ n ∉ p := by
  have hm := pickMax_mem _ _ h
  simp only [routerEvaluations, List.mem_map] at hm
  obtain ⟨a, ha, hae⟩ := hm
  have han : a = n := congrArg Prod.fst hae
  subst han
  simp only [routerCandidates, routerAvailable, List.mem_filter,
    decide_eq_true_eq] at ha
  exact ⟨ha.1.1, ha.1.2, ha.2⟩

/-- Termination measure for the router recursion: the number of registered
agents that are neither processed nor the current agent. -/
def pqMeasure (env : AgentEnv) (processed : List String) (self : String) : ℕ :=
  (env.agents.toFinset.filter (fun a => a ∉ processed ∧ a ≠ self)).card

theorem pqMeasure_lt (env : AgentEnv) {p : List String} {self n : String}
    (hna : n ∈ env.agents) (hnp : n ∉ p) (hns : n ≠ self) :
    pqMeasure env (p ++ [self]) n < pqMeasure env p self := by
  apply Finset.card_lt_card
  rw [Finset.ssubset_iff_of_subset]
  · refine ⟨n, ?_, ?_⟩
    · simp only [Finset.mem_filter, List.mem_toFinset]
      exact ⟨hna, hnp, hns⟩
    · simp only [Finset.mem_filter, List.mem_toFinset]
      intro hmem
      exact hmem.2.2 rfl
  · intro a ha
    simp only [Finset.mem_filter, List.mem_toFinset, List.mem_append,
      List.mem_singleton, not_or] at ha ⊢
    exact ⟨ha.1, ha.2.1.1, ha.2.1.2⟩

/-- `BaseAgent.process_query` (`base_agent.py` lines 130-205), one router
invocation starting at agent `self`.

The translation, clause by clause:
* lines 133-137: read trail / processed lists from the context, run
  `_process_message`; if it raises, the outer handler (lines 197-205)
  returns the error dict (no `content`, no `processed_agents`);
* lines 139-151: append the trail step and the agent's own name;
* lines 153-165: evaluate every available agent not yet processed and put
  the highest scorer into the step's `next_agent` / `next_agent_reason`
  (the step dict is mutated in place, so the appended trail entry carries
  those keys);
* lines 177-195: if a candidate was chosen (truthy name that is a key of
  `available_agents`), ask its `make_decision`; only on `"yes"` recurse
  into the candidate's `process_query`; an exception from the hand-off is
  caught and recorded as `next_agent_error` on the response, which keeps
  the `content` produced before the hand-off; on success the response's
  `message_trail` / `processed_agents` are taken from the nested result
  (`.get` with the current values as defaults — the nested error dict has
  no `processed_agents` key). -/
def process_query (env : AgentEnv) (self msg : String) (ctx : Ctx) : Response :=
  match env.processMsg self msg with
  | .error e =>
      .mk self none "error" ctx.message_trail none none none (some e)
  | .ok current =>
      match hmax : pickMax (routerEvaluations env self (ctx.processed_agents ++ [self]) current) with
      | none =>
          .mk self (some current) "completed"
            (ctx.message_trail ++ [⟨self, msg, current, none, none, none⟩])
            (some (ctx.processed_agents ++ [self])) none none none
      | some (n, ev) =>
          if n ≠ "" ∧ n ∈ routerAvailable env self then
            if make_decision (env.decideCompletion n (handoffPrompt current)) = "yes" then
              match env.handoffFault n with
              | some err =>
                  .mk self (some current) "completed"
                    (ctx.message_trail ++ [⟨self, msg, current, some n, some ev.reason, none⟩])
                    (some (ctx.processed_agents ++ [self])) none (some err) none
              | none =>
                  let child := process_query env n current
                    ⟨ctx.message_trail ++ [⟨self, msg, current, some n, some ev.reason, none⟩],
                     ctx.processed_agents ++ [self]⟩
                  .mk self (some current) "completed" child.message_trail
                    (some (child.processed_agents.getD (ctx.processed_agents ++ [self])))
                    (some child) none none
            else
              .mk self (some current) "completed"
                (ctx.message_trail ++ [⟨self, msg, current, some n, some ev.reason, none⟩])
                (some (ctx.processed_agents ++ [self])) none none none
          else
            .mk self (some current) "completed"
              (ctx.message_trail ++ [⟨self, msg, current, some n, some ev.reason, none⟩])
              (some (ctx.processed_agents ++ [self])) none none none
termination_by pqMeasure env ctx.processed_agents self
decreasing_by
  obtain ⟨hna, hns, hnp⟩ := pickMax_props env self current (ctx.processed_agents ++ [self]) n ev hmax
  have hnp2 : n ∉ ctx.processed_agents := fun hmem => hnp (List.mem_append_left _ hmem)
  exact pqMeasure_lt env hna hnp2 hns

/-- The no-revisit invariant of a trail suffix, relative to the set of agents
already processed when the suffix began: each step's agent was not yet
processed at the moment it ran, the candidate it selects (if any) is not the
step's own agent nor any previously processed one, and the invariant holds
recursively once the step's agent is accounted processed. -/
def trailOk (processed : List String) : List Step → Prop
  | [] => True
  | s :: rest =>
      s.agent_name ∉ processed ∧
      (∀ m, s.next_agent = some m → m ∉ processed ++ [s.agent_name]) ∧
      trailOk (processed ++ [s.agent_name]) rest

theorem process_query_trail (env : AgentEnv) :
    ∀ (N : ℕ) (self msg : String) (ctx : Ctx),
      pqMeasure env ctx.processed_agents self ≤ N →
      self ∉ ctx.processed_agents →
      ∃ new, (process_query env self msg ctx).message_trail = ctx.message_trail ++ new ∧
        trailOk ctx.processed_agents new := by
  intro N
  induction N using Nat.strong_induction_on with
  | _ N IH =>
    intro self msg ctx hN hself
    rw [process_query.eq_def]
    split
    · exact ⟨[], by simp, trivial⟩
    · rename_i current heq
      split
      · rename_i hmax
        refine ⟨[⟨self, msg, current, none, none, none⟩], by simp, ?_⟩
        exact ⟨hself, fun m hm => by simp at hm, trivial⟩
      · rename_i n ev hmax
        obtain ⟨hna, hns, hnp⟩ :=
          pickMax_props env self current (ctx.processed_agents ++ [self]) n ev hmax
        split
        · split
          · split
            · rename_i err hf
              refine ⟨[⟨self, msg, current, some n, some ev.reason, none⟩], by simp, ?_⟩
              refine ⟨hself, fun m hm => ?_, trivial⟩
              obtain rfl := Option.some.inj hm
              exact hnp
            · rename_i hf
              have hlt := pqMeasure_lt env hna
                (fun h => hnp (List.mem_append_left _ h)) hns
              obtain ⟨new2, ht2, hok2⟩ :=
                IH (pqMeasure env (ctx.processed_agents ++ [self]) n)
                  (lt_of_lt_of_le hlt hN) n current
                  ⟨ctx.message_trail ++ [⟨self, msg, current, some n, some ev.reason, none⟩],
                   ctx.processed_agents ++ [self]⟩ le_rfl hnp
              refine ⟨⟨self, msg, current, some n, some ev.reason, none⟩ :: new2, ?_, ?_⟩
              · simp only [Response.message_trail_mk]
                rw [ht2]
                simp
              · refine ⟨hself, fun m hm => ?_, hok2⟩
                obtain rfl := Option.some.inj hm
                exact hnp
          · refine ⟨[⟨self, msg, current, some n, some ev.reason, none⟩], by simp, ?_⟩
            refine ⟨hself, fun m hm => ?_, trivial⟩
            obtain rfl := Option.some.inj hm
            exact hnp
        · refine ⟨[⟨self, msg, current, some n, some ev.reason, none⟩], by simp, ?_⟩
          refine ⟨hself, fun m hm => ?_, trivial⟩
          obtain rfl := Option.some.inj hm
          exact hnp

/-- C4: within one router invocation, once an agent's name is in the
processed list, no later round evaluates it (the candidate list of every
round excludes processed agents) and no later step runs it or selects it as
the next candidate (`trailOk`): the steps `process_query` appends to the
trail satisfy the no-revisit invariant relative to the processed set the
invocation started from. -/
theorem router_processed_no_revisit (env : AgentEnv) (self msg : String) (ctx : Ctx)
    (hself : self ∉ ctx.processed_agents) :
    (∀ s p a, a ∈ routerCandidates env s p → a ∉ p) ∧
    ∃ new, (process_query env self msg ctx).message_trail = ctx.message_trail ++ new ∧
      trailOk ctx.processed_agents new := by
  constructor
  · intro s p a ha
    simp only [routerCandidates, List.mem_filter, decide_eq_true_eq] at ha
    exact ha.2
  · exact process_query_trail env (pqMeasure env ctx.processed_agents self)
      self msg ctx le_rfl hself

/-- A concrete two-agent registry used to witness the router theorems. -/
def env4 : AgentEnv :=
  { agents := ["A", "B"],
    processMsg := fun _ _ => Except.ok "out",
    evalCap := fun _ _ => ⟨1, "fit"⟩,
    decideCompletion := fun _ _ => Except.ok "no",
    handoffFault := fun _ => none }

/-- Witness for `router_processed_no_revisit` at a concrete registry. -/
theorem router_processed_no_revisit_witness :
    ("A" ∉ ([] : List String)) ∧
    ((∀ s p a, a ∈ routerCandidates env4 s p → a ∉ p) ∧
      ∃ new, (process_query env4 "A" "m" ⟨[], []⟩).message_trail = [] ++ new ∧
        trailOk [] new) :=
  ⟨by decide, router_processed_no_revisit env4 "A" "m" ⟨[], []⟩ (by decide)⟩

/-- Unfolding lemma: a run whose `_process_message` succeeds and whose
evaluation round selects no candidate (empty evaluation list) returns the
plain completed response. -/
theorem process_query_no_next (env : AgentEnv) (self msg current : String) (ctx : Ctx)
    (h1 : env.processMsg self msg = Except.ok current)
    (hmax : pickMax (routerEvaluations env self (ctx.processed_agents ++ [self]) current) = none) :
    process_query env self msg ctx =
      Response.mk self (some current) "completed"
        (ctx.message_trail ++ [⟨self, msg, current, none, none, none⟩])
        (some (ctx.processed_agents ++ [self])) none none none := by
  rw [process_query.eq_def]
  split
  · rename_i e heq; rw [h1] at heq; exact absurd heq (by simp)
  · rename_i current2 heq
    rw [h1] at heq
    obtain rfl := Except.ok.inj heq
    split
    · rfl
    · rename_i n ev hmax2; rw [hmax] at hmax2; exact absurd hmax2 (by simp)

/-- Unfolding lemma: a run whose hand-off target's `process_query` raises
(`handoffFault`) returns the completed response produced before the
hand-off, with the error recorded in the response's `next_agent_error`. -/
theorem process_query_handoff_fault (env : AgentEnv) (self msg current n : String)
    (ev : EvalResult) (err : String) (ctx : Ctx)
    (h1 : env.processMsg self msg = Except.ok current)
    (hmax : pickMax (routerEvaluations env self (ctx.processed_agents ++ [self]) current) =
      some (n, ev))
    (hg : n ≠ "" ∧ n ∈ routerAvailable env self)
    (hd : make_decision (env.decideCompletion n (handoffPrompt current)) = "yes")
    (hf : env.handoffFault n = some err) :
    process_query env self msg ctx =
      Response.mk self (some current) "completed"
        (ctx.message_trail ++ [⟨self, msg, current, some n, some ev.reason, none⟩])
        (some (ctx.processed_agents ++ [self])) none (some err) none := by
  rw [process_query.eq_def]
  split
  · rename_i e heq; rw [h1] at heq; exact absurd heq (by simp)
  · rename_i current2 heq
    rw [h1] at heq
    obtain rfl := Except.ok.inj heq
    split
    · rename_i hmax2; rw [hmax] at hmax2; exact absurd hmax2 (by simp)
    · rename_i n2 ev2 hmax2
      rw [hmax] at hmax2
      have hpair := Option.some.inj hmax2
      obtain rfl : n = n2 := congrArg Prod.fst hpair
      obtain rfl : ev = ev2 := congrArg Prod.snd hpair
      split
      · split
        · rename_i err2 hf2
          rw [hf] at hf2
          obtain rfl := Option.some.inj hf2
          rfl
        · rename_i hf2; rw [hf] at hf2; exact absurd hf2 (by simp)
      · rename_i hg2; exact absurd hg hg2

/-- C5: `make_decision` maps a raising completion call to `"no"`, and when
every decision completion call fails, no hand-off happens anywhere in the
invocation: the response carries no nested result and no hand-off error. -/
theorem make_decision_fail_closed (env : AgentEnv) (self msg : String) (ctx : Ctx)
    (hfail : ∀ a p, ∃ e, env.decideCompletion a p = Except.error e) :
    (∀ e, make_decision (Except.error e) = "no") ∧
    (process_query env self msg ctx).next_agent_result = none ∧
    (process_query env self msg ctx).next_agent_error = none := by
  refine ⟨fun e => rfl, ?_⟩
  rw [process_query.eq_def]
  split
  · simp
  · rename_i current heq
    split
    · simp
    · rename_i n ev hmax
      split
      · split
        · rename_i hd
          obtain ⟨e, he⟩ := hfail n (handoffPrompt current)
          rw [he] at hd
          exact absurd hd (by simp [make_decision])
        · simp
      · simp

/-- Registry in which every decision completion call raises, witnessing
`make_decision_fail_closed`. -/
def env5 : AgentEnv :=
  { agents := ["A", "B"],
    processMsg := fun _ _ => Except.ok "out",
    evalCap := fun _ _ => ⟨1, "fit"⟩,
    decideCompletion := fun _ _ => Except.error "api down",
    handoffFault := fun _ => none }

/-- Witness for `make_decision_fail_closed` at a concrete registry. -/
theorem make_decision_fail_closed_witness :
    (∀ a p, ∃ e, env5.decideCompletion a p = Except.error e) ∧
    ((∀ e, make_decision (Except.error e) = "no") ∧
      (process_query env5 "A" "m" ⟨[], []⟩).next_agent_result = none ∧
      (process_query env5 "A" "m" ⟨[], []⟩).next_agent_error = none) :=
  ⟨fun _ _ => ⟨"api down", rfl⟩,
   make_decision_fail_closed env5 "A" "m" ⟨[], []⟩ (fun _ _ => ⟨"api down", rfl⟩)⟩

/-- Registry for the hand-off-failure scenario: agent A answers, agent B is
selected and commits, and B's `process_query` raises `"boom"`. -/
def env6 : AgentEnv :=
  { agents := ["A", "B"],
    processMsg := fun a m =>
      if a = "A" ∧ m = "q" then Except.ok "outA" else Except.error "unexpected",
    evalCap := fun _ _ => ⟨(9 : ℚ) / 10, "fit"⟩,
    decideCompletion := fun _ _ => Except.ok "yes",
    handoffFault := fun a => if a = "B" then some "boom" else none }

/-- The response of the hand-off-failure scenario. -/
def r6 : Response := process_query env6 "A" "q" ⟨[], []⟩

/-- C6 counterexample: in a run whose hand-off raises, the exception is
caught (the response reports `next_agent_error = "boom"` and keeps the
pre-hand-off output), but contrary to the claim, no trail step records the
error as `nextAgentError` — the source writes the key on the response dict,
never on the step. -/
theorem handoff_error_not_on_trail_step :
    r6.next_agent_error = some "boom" ∧
    r6.content = some "outA" ∧
    ¬ ∃ s ∈ r6.message_trail, s.next_agent_error = some "boom" := by
  have heq : r6 = Response.mk "A" (some "outA") "completed"
      [⟨"A", "q", "outA", some "B", some "fit", none⟩]
      (some ["A"]) none (some "boom") none :=
    process_query_handoff_fault env6 "A" "q" "outA" "B" ⟨(9 : ℚ) / 10, "fit"⟩
      "boom" ⟨[], []⟩ rfl rfl ⟨by decide, by decide⟩ (by decide) rfl
  rw [heq]
  refine ⟨rfl, rfl, ?_⟩
  rintro ⟨s, hs, hserr⟩
  simp only [Response.message_trail_mk, List.mem_singleton] at hs
  subst hs
  simp at hserr

/-- C6 (amended): if the chosen candidate's `process_query` raises during a
hand-off, the exception is caught and recorded on the invocation's response
as `next_agent_error` (not on the trail step), and the invocation returns
the output produced before the failing hand-off: `content` is the
pre-hand-off output, there is no nested result, the trail ends with the
failing step, and no newly appended step carries an error key. -/
theorem handoff_error_preserves_output (env : AgentEnv) (self msg current n : String)
    (ev : EvalResult) (err : String) (ctx : Ctx)
    (h1 : env.processMsg self msg = Except.ok current)
    (hmax : pickMax (routerEvaluations env self (ctx.processed_agents ++ [self]) current) =
      some (n, ev))
    (hg : n ≠ "" ∧ n ∈ routerAvailable env self)
    (hd : make_decision (env.decideCompletion n (handoffPrompt current)) = "yes")
    (hf : env.handoffFault n = some err) :
    (process_query env self msg ctx).next_agent_error = some err ∧
    (process_query env self msg ctx).content = some current ∧
    (process_query env self msg ctx).next_agent_result = none ∧
    (process_query env self msg ctx).message_trail =
      ctx.message_trail ++ [⟨self, msg, current, some n, some ev.reason, none⟩] ∧
    (∀ s ∈ (process_query env self msg ctx).message_trail,
      s ∈ ctx.message_trail ∨ s.next_agent_error = none) := by
  rw [process_query_handoff_fault env self msg current n ev err ctx h1 hmax hg hd hf]
  refine ⟨rfl, rfl, rfl, rfl, ?_⟩
  intro s hs
  simp only [Response.message_trail_mk, List.mem_append, List.mem_singleton] at hs
  rcases hs with h | h
  · exact Or.inl h
  · subst h; exact Or.inr rfl

/-- Witness for `handoff_error_preserves_output` at the concrete scenario. -/
theorem handoff_error_preserves_output_witness :
    (env6.processMsg "A" "q" = Except.ok "outA" ∧ env6.handoffFault "B" = some "boom") ∧
    ((process_query env6 "A" "q" ⟨[], []⟩).next_agent_error = some "boom" ∧
      (process_query env6 "A" "q" ⟨[], []⟩).content = some "outA" ∧
      (process_query env6 "A" "q" ⟨[], []⟩).next_agent_result = none ∧
      (process_query env6 "A" "q" ⟨[], []⟩).message_trail =
        [] ++ [⟨"A", "q", "outA", some "B", some "fit", none⟩] ∧
      (∀ s ∈ (process_query env6 "A" "q" ⟨[], []⟩).message_trail,
        s ∈ ([] : List Step) ∨ s.next_agent_error = none)) :=
  ⟨⟨rfl, rfl⟩,
   handoff_error_preserves_output env6 "A" "q" "outA" "B" ⟨(9 : ℚ) / 10, "fit"⟩
     "boom" ⟨[], []⟩ rfl rfl ⟨by decide, by decide⟩ (by decide) rfl⟩

/-- The value of the context key `"processing_agents"` that
`AgentManager.process_message` initializes to an empty set
(`agent_manager.py` line 67) and later reads back (line 74).  The agents'
`process_query` reads and appends the *differently named* key
`"processed_agents"` (`base_agent.py` lines 135 and 146), so no code ever
adds a name to `"processing_agents"`: it stays empty for the whole
invocation. -/
def managerProcessingAgents : List String := []

/-- The dict returned by `AgentManager.process_message`
(`agent_manager.py` lines 56-94).  `result` is the starting agent's
response dict; `unused_agents` models the `"unused_agents"` key the manager
adds to that response dict when its unprocessed-agents set is non-empty
(lines 77-79); `processing_sequence` is `list(processed_agents)` of line 85,
computed from the same empty `"processing_agents"` set. -/
structure ManagerOut where
  status : String
  result : Option Response
  unused_agents : Option (List String)
  processing_sequence : List String
  error : Option String

/-- `AgentManager.process_message`: start the router at `initial_agent`
with a fresh context (`message_trail = []`, no `"processed_agents"` key, so
the agents' `.get` default `[]` applies), then report the agents that are
not in the never-written `"processing_agents"` set as unused.  An unknown
starting agent raises `ValueError`, caught by the method's own handler
(lines 88-94). -/
def manager_process_message (env : AgentEnv) (message initial_agent : String) :
    ManagerOut :=
  if initial_agent ∈ env.agents then
    { status := "success",
      result := some (process_query env initial_agent message ⟨[], []⟩),
      unused_agents :=
        if (env.agents.filter (fun a => decide (a ∉ managerProcessingAgents))).isEmpty
        then none
        else some (env.agents.filter (fun a => decide (a ∉ managerProcessingAgents))),
      processing_sequence := managerProcessingAgents,
      error := none }
  else
    { status := "error", result := none, unused_agents := none,
      processing_sequence := [],
      error := some ("Initial agent " ++ initial_agent ++ " not found") }

/-- A one-agent registry whose only agent handles the message successfully. -/
def env9 : AgentEnv :=
  { agents := ["A"],
    processMsg := fun _ _ => Except.ok "out",
    evalCap := fun _ _ => ⟨0, ""⟩,
    decideCompletion := fun _ _ => Except.ok "no",
    handoffFault := fun _ => none }

/-- C9 failing input: with registry `{A}` and starting agent `A`, agent `A`
is visited (it appears in the trail and in the response's
`processed_agents`), yet the manager's warning list `unused_agents` still
contains `A`, because the manager reads the context key
`"processing_agents"` while the agents write `"processed_agents"`.  The
claim — that the warning list contains no visited agent — is therefore
false on the code. -/
theorem manager_unused_contains_visited :
    (manager_process_message env9 "m" "A").unused_agents = some ["A"] ∧
    (manager_process_message env9 "m" "A").result =
      some (Response.mk "A" (some "out") "completed"
        [⟨"A", "m", "out", none, none, none⟩] (some ["A"]) none none none) := by
  have hr := process_query_no_next env9 "A" "m" "out" ⟨[], []⟩ rfl rfl
  have hin : "A" ∈ env9.agents := by decide
  simp only [manager_process_message, if_pos hin]
  refine ⟨by decide, ?_⟩
  rw [hr]
  rfl

/-- Python's `s.split(c)` for a one-character separator, on the character
list (`''.split` semantics: splitting the empty string yields `[""]`, and a
trailing separator yields a trailing empty piece). -/
def splitOnChar (c : Char) : List Char → List (List Char)
  | [] => [[]]
  | x :: xs =>
      match splitOnChar c xs with
      | [] => [[]]
      | h :: t => if x = c then [] :: h :: t else (x :: h) :: t

/-- `response.split('\n')[0]` (`base_agent.py` line 68). -/
def firstLine (s : String) : String :=
  ⟨(splitOnChar (Char.ofNat 10) s.data).headD []⟩

/-- `'\n'.join(response.split('\n')[1:])` (`base_agent.py` line 69). -/
def joinTail (s : String) : String :=
  ⟨List.intercalate [Char.ofNat 10] ((splitOnChar (Char.ofNat 10) s.data).drop 1)⟩

/-- `min(max(score, 0.0), 1.0)` (`base_agent.py` line 75). -/
def clamp01 (x : ℚ) : ℚ := min (max x 0) 1

theorem clamp01_nonneg (x : ℚ) : 0 ≤ clamp01 x :=
  le_min (le_max_right x 0) zero_le_one

theorem clamp01_le_one (x : ℚ) : clamp01 x ≤ 1 := min_le_right _ _

/-- `BaseAgent.evaluate_capability` (`base_agent.py` lines 57-84).
`completion` is the completion-service outcome; `parse` abstracts Python's
`float()` on the first reply line — `some q` models `float(line) == q`,
`none` models `float` raising `ValueError` (a non-numeric line).  On a
parsed score the reply's remaining lines become the reason; on a parse
failure the score is `0.0` and the whole reply is the reason; either way the
returned score is clamped by `min(max(score, 0.0), 1.0)`.  A raising
completion call is caught and scored `0.0`. -/
def base_evaluate_capability (parse : String → Option ℚ)
    (completion : Except String String) : EvalResult :=
  match completion with
  | .error e => ⟨0, "評估時發生錯誤: " ++ e⟩
  | .ok response =>
      match parse (firstLine response) with
      | some score => ⟨clamp01 score, joinTail response⟩
      | none => ⟨clamp01 0, response⟩

/-- `DynamicAgent.evaluate_capability` (`dynamic_agent.py` lines 113-166):
identical to the base version except that a non-numeric first line is scored
`0.5` (line 150), not `0.0`.  The knowledge-base lookup that feeds the
evaluation prompt cannot raise (`_query_knowledge_base` catches everything)
and does not affect the returned value's shape. -/
def dynamic_evaluate_capability (parse : String → Option ℚ)
    (completion : Except String String) : EvalResult :=
  match completion with
  | .error e => ⟨0, "評估時發生錯誤: " ++ e⟩
  | .ok response =>
      match parse (firstLine response) with
      | some score => ⟨clamp01 score, joinTail response⟩
      | none => ⟨clamp01 (1 / 2), response⟩

/-- C7 counterexample: the claim states that for every agent type a
non-numeric first line yields score `0.0` with the whole reply kept as the
reason; `DynamicAgent.evaluate_capability` instead yields `0.5`
(`dynamic_agent.py` line 150), so the universally quantified claim is
false. -/
theorem dynamic_eval_nonnumeric_score_half :
    ¬ (∀ (parse : String → Option ℚ) (r : String), parse (firstLine r) = none →
        dynamic_evaluate_capability parse (Except.ok r) = ⟨0, r⟩) := by
  intro h
  have h1 := h (fun _ => none) "N/A" rfl
  have hs : clamp01 (1 / 2) = (0 : ℚ) := congrArg EvalResult.score h1
  rw [clamp01] at hs
  norm_num at hs

/-- C7 (amended): for every prompt and both evaluator implementations,
`evaluate_capability` never raises and returns a score in `[0, 1]` with a
reason; a parsed first line is clamped into `[0, 1]` with the remaining
lines as the reason; a non-numeric first line keeps the whole reply as the
reason with score `0.0` in `BaseAgent` but `0.5` in `DynamicAgent`; a
raising completion call is caught and scored `0.0` in both. -/
theorem evaluate_capability_contract (parse : String → Option ℚ)
    (c : Except String String) :
    (0 ≤ (base_evaluate_capability parse c).score ∧
      (base_evaluate_capability parse c).score ≤ 1) ∧
    (0 ≤ (dynamic_evaluate_capability parse c).score ∧
      (dynamic_evaluate_capability parse c).score ≤ 1) ∧
    (∀ r, c = Except.ok r → parse (firstLine r) = none →
      base_evaluate_capability parse c = ⟨0, r⟩ ∧
      dynamic_evaluate_capability parse c = ⟨1 / 2, r⟩) ∧
    (∀ r q, c = Except.ok r → parse (firstLine r) = some q →
      base_evaluate_capability parse c = ⟨clamp01 q, joinTail r⟩ ∧
      dynamic_evaluate_capability parse c = ⟨clamp01 q, joinTail r⟩) ∧
    (∀ e, c = Except.error e →
      (base_evaluate_capability parse c).score = 0 ∧
      (dynamic_evaluate_capability parse c).score = 0) := by
  refine ⟨?_, ?_, ?_, ?_, ?_⟩
  · cases c with
    | error e => simp [base_evaluate_capability]
    | ok r =>
        cases hp : parse (firstLine r) <;>
          simp [base_evaluate_capability, hp, clamp01_nonneg, clamp01_le_one]
  · cases c with
    | error e => simp [dynamic_evaluate_capability]
    | ok r =>
        cases hp : parse (firstLine r) <;>
          simp [dynamic_evaluate_capability, hp, clamp01_nonneg, clamp01_le_one]
  · rintro r rfl hp
    constructor
    · simp only [base_evaluate_capability, hp]
      have : clamp01 0 = 0 := by rw [clamp01]; norm_num
      rw [this]
    · simp only [dynamic_evaluate_capability, hp]
      have : clamp01 (1 / 2) = 1 / 2 := by rw [clamp01]; norm_num
      rw [this]
  · rintro r q rfl hp
    constructor
    · simp only [base_evaluate_capability, hp]
    · simp only [dynamic_evaluate_capability, hp]
  · rintro e rfl
    exact ⟨rfl, rfl⟩

/-- A concrete parse oracle that rejects every line (models `float` raising
on a non-numeric reply). -/
def parse7 : String → Option ℚ := fun _ => none

/-- Witness for `evaluate_capability_contract` at a concrete non-numeric
reply. -/
theorem evaluate_capability_contract_witness :
    ((Except.ok "N/A" : Except String String) = Except.ok "N/A") ∧
    (parse7 (firstLine "N/A") = none) ∧
    (base_evaluate_capability parse7 (Except.ok "N/A") = ⟨0, "N/A"⟩ ∧
      dynamic_evaluate_capability parse7 (Except.ok "N/A") = ⟨1 / 2, "N/A"⟩) :=
  ⟨rfl, rfl,
   (evaluate_capability_contract parse7 (Except.ok "N/A")).2.2.1 "N/A" rfl rfl⟩

open Classical in
/-- The body of one `create_embedding.embed_text` attempt
(`create_embedding.py` lines 81-91): `c` is the Embedding Service outcome;
on success the vector is divided by its L2 norm when the norm is positive,
and `None` is returned for a zero-norm result; a raising service call
re-raises (so that tenacity retries). -/
noncomputable def embed_once {E : Type} [NormedAddCommGroup E] [NormedSpace ℝ E]
    (c : Except String E) : Except String (Option E) :=
  match c with
  | .error e => .error e
  | .ok x => .ok (if 0 < ‖x‖ then some (‖x‖⁻¹ • x) else none)

/-- The tenacity decorator `retry(stop=stop_after_attempt(3), ...)`
(`create_embedding.py` lines 69-74): run up to three attempts, returning the
first non-raising result; if the third attempt raises, the exception
propagates.  `f i` is the outcome of attempt `i`. -/
def retry3 {α : Type} (f : ℕ → Except String α) : Except String α :=
  match f 0 with
  | .ok r => .ok r
  | .error _ =>
      match f 1 with
      | .ok r => .ok r
      | .error _ => f 2

/-- `create_embedding.embed_text` (`create_embedding.py` lines 69-91): empty
or whitespace-only input returns `None` without any service call; otherwise
the retried attempt body runs.  The second component records whether the
Embedding Service was called. -/
noncomputable def embed_text {E : Type} [NormedAddCommGroup E] [NormedSpace ℝ E]
    (text : String) (svc : ℕ → Except String E) :
    Except String (Option E) × Bool :=
  if pyStrip text = "" then (Except.ok none, false)
  else (retry3 (fun i => embed_once (svc i)), true)

open Classical in
/-- `utils/query_knowledge.embed_text` (`query_knowledge.py` lines 26-41):
no empty-input check (the service is always called); a raising service call
is caught and `np.zeros(EMBEDDING_SIZE)` — the zero vector — is returned; a
zero-norm service result is returned unnormalized (the division only happens
when `norm > 0`, and the vector is returned either way). -/
noncomputable def qk_embed_text {E : Type} [NormedAddCommGroup E] [NormedSpace ℝ E]
    (_text : String) (svc : Except String E) : E × Bool :=
  match svc with
  | .error _ => (0, true)
  | .ok x => (if 0 < ‖x‖ then ‖x‖⁻¹ • x else x, true)

theorem embed_once_norm {E : Type} [NormedAddCommGroup E] [NormedSpace ℝ E]
    {c : Except String E} {v : E}
    (h : embed_once c = Except.ok (some v)) : ‖v‖ = 1 := by
  cases c with
  | error e => simp [embed_once] at h
  | ok x =>
      have h2 : (if 0 < ‖x‖ then some (‖x‖⁻¹ • x) else none) = some v :=
        Except.ok.inj h
      split at h2
      · rename_i hx
        obtain rfl := Option.some.inj h2
        rw [norm_smul, norm_inv, norm_norm]
        exact inv_mul_cancel₀ (ne_of_gt hx)
      · exact absurd h2 (by simp)

theorem retry3_ok {α : Type} (f : ℕ → Except String α) (r : α)
    (h : retry3 f = Except.ok r) : ∃ i, f i = Except.ok r := by
  unfold retry3 at h
  split at h
  · rename_i a h0
    exact ⟨0, h0.trans h⟩
  · rename_i e h0
    split at h
    · rename_i a h1
      exact ⟨1, h1.trans h⟩
    · exact ⟨2, h⟩

/-- C2 counterexample: the claim covers `utils/query_knowledge.embed_text`
(cited source lines 26-41), for which it is false: on a failing service call
that function returns the 3072-dimensional zero vector — a vector of norm 0,
not a unit vector and not an explicit failure. -/
theorem qk_embed_text_failure_not_unit_norm :
    ¬ (∀ svcq : Except String (EuclideanSpace ℝ (Fin 3072)),
        |‖(qk_embed_text "hello" svcq).1‖ - 1| ≤ 1 / 100000) := by
  intro h
  have h1 := h (Except.error "connection error")
  have h2 : (qk_embed_text "hello"
      (Except.error "connection error" : Except String (EuclideanSpace ℝ (Fin 3072)))).1 = 0 := rfl
  rw [h2, norm_zero] at h1
  norm_num at h1

/-- C2 (amended): `create_embedding.embed_text` satisfies the claimed
contract — every returned vector is unit-norm (hence within `1e-5` of 1),
empty/whitespace input returns the failure `None` without calling the
service, and a zero-norm service result becomes `None` — while
`utils/query_knowledge.embed_text` does not: it always calls the service,
returns the zero vector on a raising call, and returns a zero-norm service
result unnormalized. -/
theorem embed_text_contract {E : Type} [NormedAddCommGroup E] [NormedSpace ℝ E]
    (text : String) (svc : ℕ → Except String E) (svcq : Except String E) :
    (∀ v : E, (embed_text text svc).1 = Except.ok (some v) → |‖v‖ - 1| ≤ 1 / 100000) ∧
    (pyStrip text = "" → embed_text text svc = (Except.ok none, false)) ∧
    (∀ x : E, ‖x‖ = 0 → embed_once (Except.ok x) = Except.ok none) ∧
    ((qk_embed_text text svcq).2 = true) ∧
    (∀ e, svcq = Except.error e → (qk_embed_text text svcq).1 = 0) ∧
    (∀ x : E, svcq = Except.ok x → ‖x‖ = 0 → (qk_embed_text text svcq).1 = x) := by
  refine ⟨?_, ?_, ?_, ?_, ?_, ?_⟩
  · intro v hv
    unfold embed_text at hv
    split at hv
    · simp at hv
    · obtain ⟨i, hi⟩ := retry3_ok (fun i => embed_once (svc i)) (some v) hv
      rw [embed_once_norm hi]
      norm_num
  · intro ht
    unfold embed_text
    rw [if_pos ht]
  · intro x hx
    show Except.ok (if 0 < ‖x‖ then some (‖x‖⁻¹ • x) else none) = Except.ok none
    rw [if_neg (by rw [hx]; exact lt_irrefl 0)]
  · cases svcq <;> rfl
  · rintro e rfl
    rfl
  · rintro x rfl hx
    show (if 0 < ‖x‖ then ‖x‖⁻¹ • x else x) = x
    rw [if_neg (by rw [hx]; exact lt_irrefl 0)]

/-- A concrete service oracle for the embedding witnesses. -/
def svc2 : ℕ → Except String ℝ := fun _ => Except.ok 2

/-- Witness for `embed_text_contract` at concrete inputs: whitespace-only
text short-circuits without a service call, and a zero-norm service result
becomes `None`. -/
theorem embed_text_contract_witness :
    (pyStrip "  " = "") ∧ (embed_text "  " svc2 = (Except.ok none, false)) ∧
    (‖(0 : ℝ)‖ = 0) ∧ (embed_once (Except.ok (0 : ℝ)) = Except.ok none) :=
  ⟨by decide, (embed_text_contract "  " svc2 (Except.ok 0)).2.1 (by decide),
   norm_zero,
   (embed_text_contract "  " svc2 (Except.ok 0)).2.2.1 0 norm_zero⟩

deriving instance DecidableEq for Except

/-- The most negative single-precision float, `-(2^128 - 2^104)`.  When a
FAISS flat index holds fewer than `k` rows, `Index.search` fills the
unfilled result slots with this distance and with label `-1` (documented
FAISS behaviour for missing results). -/
def faissPadScore : ℚ := -(340282346638528859811704183484516925440 : ℚ)

/-- Inner product of two vectors (FAISS `IndexFlatIP` scoring;
`create_embedding.py` line 175 creates the index with `faiss.IndexFlatIP`). -/
def dotQ (u v : List ℚ) : ℚ := (List.zipWith (fun a b => a * b) u v).sum

/-- Result ordering of the flat search over `(row index, score)` pairs:
higher score first, ties broken by lower row index (earlier-added row
first). -/
def searchKey (a b : ℕ × ℚ) : Prop := b.2 < a.2 ∨ (b.2 = a.2 ∧ a.1 ≤ b.1)

instance : DecidableRel searchKey := fun a b => by
  unfold searchKey
  infer_instance

/-- Pair each list element with its position, starting at `i`. -/
def withIdx {α : Type} : ℕ → List α → List (ℕ × α)
  | _, [] => []
  | i, x :: xs => (i, x) :: withIdx (i + 1) xs

/-- `faiss.IndexFlatIP.search(q, k)` over the stored rows: exhaustively
score every row by inner product, sort descending (ties by insertion
order), keep the first `k`, and pad up to `k` entries with
`(lowest float, -1)` when the index has fewer than `k` rows.  Returns the
`(distance, label)` pairs `zip(D[0], I[0])` of
`create_embedding.py` line 269. -/
def faiss_search (rows : List (List ℚ)) (q : List ℚ) (k : ℕ) : List (ℚ × ℤ) :=
  let top := ((withIdx 0 (rows.map (dotQ q))).insertionSort searchKey).take k
  let filled := top.map (fun p => (p.2, (p.1 : ℤ)))
  filled ++ List.replicate (k - filled.length) (faissPadScore, (-1 : ℤ))

/-- Python sequence indexing `xs[i]` for an `int` index: non-negative
indices are positions, negative indices count from the end (`xs[-1]` is the
last element), and anything further out raises `IndexError` (`none`). -/
def pyGet {α : Type} (xs : List α) (i : ℤ) : Option α :=
  if 0 ≤ i then xs[i.toNat]?
  else if 0 ≤ i + xs.length then xs[(i + xs.length).toNat]?
  else none

/-- The persisted snapshot as loaded by `load_index`
(`create_embedding.py` lines 232-252): the row matrix plus the parallel
`texts` / `sources` arrays from `metadata.pkl`. -/
structure LoadedIndex where
  vectors : List (List ℚ)
  texts : List String
  sources : List String

/-- The result comprehension of `query_index_async`
(`create_embedding.py` lines 272-276):
`[(texts[i], sources[i], float(d)) for d, i in zip(D[0], I[0]) if i < len(texts)]`.
The guard is `i < len(texts)` — it does not exclude the negative padding
label `-1`, and Python's `texts[-1]` is the last stored passage.  An
out-of-range access raises (`.error`), which the function's `except` would
re-wrap. -/
def queryResults (texts sources : List String) :
    List (ℚ × ℤ) → Except String (List (String × String × ℚ))
  | [] => .ok []
  | di :: rest =>
      if di.2 < (texts.length : ℤ) then
        match pyGet texts di.2, pyGet sources di.2 with
        | some t, some s =>
            match queryResults texts sources rest with
            | .ok rs => .ok ((t, s, di.1) :: rs)
            | .error e => .error e
        | _, _ => .error "IndexError"
      else queryResults texts sources rest

/-- `create_embedding.query_index_async` (`create_embedding.py`
lines 254-285): a missing `docs_dir` raises 400; `loaded` is the outcome of
`load_index`; `qv` is the query embedding (`none` models `embed_text`
returning `None`, which raises 500); then the FAISS search and the result
comprehension run. -/
def query_index_async (loaded : Except String LoadedIndex) (qv : Option (List ℚ))
    (k : ℕ) (docs_dir : Option String) :
    Except String (List (String × String × ℚ)) :=
  match docs_dir with
  | none => Except.error "docs_dir parameter is required"
  | some _ =>
      match loaded with
      | .error e => .error e
      | .ok idx =>
          match qv with
          | none => .error "Failed to generate query embedding"
          | some v => queryResults idx.texts idx.sources (faiss_search idx.vectors v k)

/-- A two-row index of orthonormal vectors. -/
def c1Index : LoadedIndex :=
  { vectors := [[1, 0], [0, 1]], texts := ["t0", "t1"], sources := ["s0", "s1"] }

/-- C1 failing input: an index with 2 rows queried with `k = 3`.  FAISS pads
the third result slot with label `-1` and the lowest float score; the guard
`i < len(texts)` does not filter it out, and `texts[-1]` / `sources[-1]`
re-read the last stored row.  The call therefore returns 3 entries for a
2-row index — a duplicate of the last passage carrying the sentinel score —
instead of "all rows and nothing else" as the claim states. -/
theorem query_index_pad_leak :
    query_index_async (Except.ok c1Index) (some [1, 0]) 3 (some "docs") =
      Except.ok [("t0", "s0", (1 : ℚ)), ("t1", "s1", 0), ("t1", "s1", faissPadScore)] ∧
    c1Index.vectors.length = 2 ∧ c1Index.texts.length = 2 := by
  refine ⟨?_, rfl, rfl⟩
  have hscores : c1Index.vectors.map (dotQ [1, 0]) = [1, 0] := by
    norm_num [c1Index, dotQ]
  have hsearch : faiss_search c1Index.vectors [1, 0] 3 =
      [((1 : ℚ), (0 : ℤ)), (0, 1), (faissPadScore, -1)] := by
    rw [faiss_search, hscores]
    norm_num [withIdx, List.insertionSort, List.orderedInsert, searchKey]
  show queryResults c1Index.texts c1Index.sources (faiss_search c1Index.vectors [1, 0] 3) =
    Except.ok [("t0", "s0", (1 : ℚ)), ("t1", "s1", 0), ("t1", "s1", faissPadScore)]
  rw [hsearch]
  norm_num [queryResults, pyGet, c1Index]

/-- A file-system operation performed while persisting a snapshot. -/
inductive FsOp where
  | write (path : String)
  | mkdirp (path : String)
  | rename (src dst : String)
deriving DecidableEq

/-- The file-system operations of the persist section of
`process_files_async` (`create_embedding.py` lines 212-224), in order:
`ensure_embedding_dir` runs `os.makedirs(embedding_dir, exist_ok=True)`,
then `faiss.write_index(index, index_path)` writes the index file directly
at its final path, then `open(metadata_path, 'wb')` + `pickle.dump` writes
the metadata file directly at its final path.  No temporary path and no
rename/replace call occurs anywhere in the function. -/
def persistOps (docs_dir : String) : List FsOp :=
  [FsOp.mkdirp (docs_dir ++ "/embedding"),
   FsOp.write (docs_dir ++ "/embedding/faiss_index.index"),
   FsOp.write (docs_dir ++ "/embedding/metadata.pkl")]

/-- Claim C3's notion of an atomic replace of `finalPath`: the final path is
never the target of a direct write, and some rename moves a temporary file
into it. -/
def atomicReplace (ops : List FsOp) (finalPath : String) : Prop :=
  FsOp.write finalPath ∉ ops ∧ ∃ tmp, FsOp.rename tmp finalPath ∈ ops

/-- C3 counterexample: the persist operation writes both snapshot files
directly to their final paths, so the claimed write-to-temp-then-rename
pattern is absent — already the index file is a direct write target. -/
theorem persist_not_atomic :
    ¬ (∀ docs_dir : String,
        atomicReplace (persistOps docs_dir) (docs_dir ++ "/embedding/faiss_index.index") ∧
        atomicReplace (persistOps docs_dir) (docs_dir ++ "/embedding/metadata.pkl")) := by
  intro h
  exact (h "docs").1.1 (by simp [persistOps])

/-- C3 (amended): the persist operation performs no rename at all; it
creates the embedding directory and writes the vector index file and the
metadata file directly in place, so a reader can observe one file updated
while the other is stale. -/
theorem persist_writes_in_place (docs_dir : String) :
    (∀ s d, FsOp.rename s d ∉ persistOps docs_dir) ∧
    FsOp.write (docs_dir ++ "/embedding/faiss_index.index") ∈ persistOps docs_dir ∧
    FsOp.write (docs_dir ++ "/embedding/metadata.pkl") ∈ persistOps docs_dir := by
  refine ⟨?_, by simp [persistOps], by simp [persistOps]⟩
  intro s d
  simp [persistOps]

/-- State of a knowledge directory as `utils/query_knowledge.py` observes
it: whether both snapshot files
(`embedding/faiss_index.index` and `embedding/metadata.pkl`) exist. -/
structure QKWorld where
  hasIndexFiles : Bool

/-- The attribute `create_embedding.process_files` that
`ensure_embeddings_exist` calls (`query_knowledge.py` line 120).
`create_embedding.py` defines `process_files_async` but no function named
`process_files`, so the attribute lookup raises `AttributeError` before any
ingestion work happens — modelled as `none`.  (If the symbol existed it
would be the ingestion entry point.) -/
def create_embedding_process_files : Option Unit := none

/-- The attribute `create_embedding.query_index` that `query_knowledge`
calls (`query_knowledge.py` line 146).  `create_embedding.py` defines
`query_index_async` but no function named `query_index`, so the lookup
raises `AttributeError` — modelled as `none`.  (If the symbol existed it
would be a query function returning `(texts, sources, scores)` or
raising.) -/
def create_embedding_query_index :
    Option (String → ℕ → QKWorld → Except String (List (String × String × ℚ))) :=
  none

/-- `ensure_embeddings_exist` (`query_knowledge.py` lines 111-125): when the
snapshot files are present, return `True` without doing anything; when they
are missing, call `create_embedding.process_files(docs_dir)` — which raises
`AttributeError` (the name does not exist), caught by the function's own
`except`, which returns `False`.  The second component records whether any
ingestion actually ran. -/
def ensure_embeddings_exist (w : QKWorld) : Bool × Bool :=
  if w.hasIndexFiles then (true, false)
  else
    match create_embedding_process_files with
    | none => (false, false)
    | some _ => (true, true)

/-- Outcome of one `query_knowledge` call: the returned list, whether
ingestion ran during the call, and an exception escaping the call (`none`
means the call returned normally). -/
structure QKOut where
  results : List (String × String × ℚ)
  ingested : Bool
  raised : Option String
deriving DecidableEq

/-- `utils/query_knowledge.query_knowledge` (`query_knowledge.py`
lines 127-165).  Branches, in source order, all inside one `try` whose
`except Exception` returns `[]`:
* no `docs_dir` → `ValueError` raised, caught → `[]`;
* `ensure_embeddings_exist` returns `False` → `[]`;
* otherwise `create_embedding.query_index(...)` → `AttributeError` (the
  name does not exist), caught → `[]`; were the symbol present, a raising
  query would likewise be caught → `[]`, and a successful one would be
  repackaged into the result list. -/
def query_knowledge (q : String) (k : ℕ) (docs_dir : Option String)
    (w : QKWorld) : QKOut :=
  match docs_dir with
  | none => ⟨[], false, none⟩
  | some _ =>
      match ensure_embeddings_exist w with
      | (false, ing) => ⟨[], ing, none⟩
      | (true, ing) =>
          match create_embedding_query_index with
          | none => ⟨[], ing, none⟩
          | some qi =>
              match qi q k w with
              | .error _ => ⟨[], ing, none⟩
              | .ok rs => ⟨rs, ing, none⟩

/-- C10: `query_knowledge` never lets an exception escape (`raised = none`
on every input — missing or `None` `docs_dir`, missing or unreadable index,
and every service outcome), and every failure path returns the empty list;
in this snapshot of the source every call returns `[]`, because the
`create_embedding.query_index` symbol it relies on does not exist, so a
caller cannot distinguish "no results" from "retrieval failed". -/
theorem query_knowledge_never_raises (q : String) (k : ℕ)
    (docs_dir : Option String) (w : QKWorld) :
    (query_knowledge q k docs_dir w).raised = none ∧
    (query_knowledge q k docs_dir w).results = [] := by
  cases docs_dir with
  | none => exact ⟨rfl, rfl⟩
  | some d =>
      cases hw : w.hasIndexFiles <;>
        simp [query_knowledge, ensure_embeddings_exist, hw,
          create_embedding_process_files, create_embedding_query_index]

/-- Claim C8 as stated, at a knowledge directory with no index snapshot:
the query must trigger ingestion once, and — the index still being missing
after the attempt, since nothing can create it — must surface a hard error
to the caller. -/
def c8Claim (w : QKWorld) : Prop :=
  w.hasIndexFiles = false →
    (query_knowledge "q" 3 (some "docs") w).ingested = true ∧
    (query_knowledge "q" 3 (some "docs") w).raised ≠ none

/-- C8 counterexample: on a directory with no snapshot, `query_knowledge`
neither runs ingestion (the `create_embedding.process_files` lookup raises
`AttributeError`, swallowed by `ensure_embeddings_exist`) nor surfaces any
error — it just returns `[]`. -/
theorem missing_index_no_hard_error : ¬ c8Claim ⟨false⟩ := by
  intro h
  obtain ⟨hi, _⟩ := h rfl
  simp [query_knowledge, ensure_embeddings_exist,
    create_embedding_process_files, create_embedding_query_index] at hi

/-- C8 (amended): when the knowledge directory has no index snapshot,
`query_knowledge` attempts ingestion via `create_embedding.process_files`,
a name that does not exist, so the attempt fails before doing any work and
the failure is swallowed: no ingestion runs, no retry happens, no error is
surfaced, and the caller receives the empty list. -/
theorem query_knowledge_missing_index_empty (q : String) (k : ℕ)
    (docs_dir : Option String) (w : QKWorld) (h : w.hasIndexFiles = false) :
    query_knowledge q k docs_dir w = ⟨[], false, none⟩ := by
  cases docs_dir with
  | none => rfl
  | some d =>
      simp [query_knowledge, ensure_embeddings_exist, h,
        create_embedding_process_files]

/-- Witness for `query_knowledge_missing_index_empty` at a concrete world. -/
theorem query_knowledge_missing_index_empty_witness :
    ((⟨false⟩ : QKWorld).hasIndexFiles = false) ∧
    query_knowledge "q" 3 (some "docs") ⟨false⟩ = ⟨[], false, none⟩ :=
  ⟨rfl, query_knowledge_missing_index_empty "q" 3 (some "docs") ⟨false⟩ rfl⟩
